import Mathlib

/-!
Verification development for the TenFin tender-scraping pipeline.

The Python sources are shallowly embedded as executable Lean functions:

* `filter_engine.py` — block splitting (`parse_tender_blocks_from_tagged_file`),
  state derivation (`deriveStateFromDepartment`), and the filter predicate
  (`matches_filters`) together with its date parsing (`parseDMY`, `parseYMD`).
* `scrape.py` — the concurrent batch orchestrator (`fetch_pages_concurrently`,
  modelled as a deterministic batch loop over a fetch oracle) and the merge and
  cleanup stage (`merge_and_cleanup`).
* `dashboard.py` — the filtered-file block parser (`_parse_single_tender_block`).

Python's content hash (`hash(content)`) is modelled injectively by comparing the
content strings themselves; Python's `re` module is modelled by an explicit
compile oracle `String → Option (String → Bool)` where `none` stands for a
pattern whose compilation raises `re.error`.
-/

set_option maxRecDepth 40000

/-! ### Python string primitives (character-list level) -/

/-- Python's substring test `needle in hay`: some position of `hay` starts with
`needle` (the empty needle is contained in every string, as in Python). -/
def containsSub (hay needle : String) : Bool :=
  (List.range (hay.data.length + 1)).any (fun i => needle.data.isPrefixOf (hay.data.drop i))

/-- Whitespace as used by Python's `str.strip()` (ASCII space, tab, CR, LF). -/
def isPyWs (c : Char) : Bool := c.isWhitespace

/-- Python's `str.strip()` on a character list: drop leading and trailing whitespace. -/
def pyStrip (l : List Char) : List Char :=
  ((l.dropWhile isPyWs).reverse.dropWhile isPyWs).reverse

/-- Python's `str.lower()` (the inputs of interest are ASCII). -/
def strToLower (s : String) : String := String.mk (s.data.map Char.toLower)

/-- Python's `str.split(sep)` for a single-character separator. -/
def splitOnChar (sep : Char) : List Char → List (List Char)
  | [] => [[]]
  | a :: as =>
    if a = sep then [] :: splitOnChar sep as
    else
      match splitOnChar sep as with
      | [] => [[a]]
      | b :: bs => (a :: b) :: bs

/-- The number denoted by a list of decimal digits. -/
def natOfDigits (l : List Char) : Nat := l.foldl (fun n c => n * 10 + (c.toNat - 48)) 0

/-- Non-empty and all decimal digits. -/
def digitsOnly (l : List Char) : Bool := !l.isEmpty && l.all Char.isDigit

/-- `sep` occurs as a contiguous substring of the list. -/
def hasInfix (sep : List Char) : List Char → Bool
  | [] => sep.isEmpty
  | c :: cs => sep.isPrefixOf (c :: cs) || hasInfix sep cs

/-- The prefix of the list up to (excluding) the first occurrence of `sep`;
this is `re.sub(sep + ".*", "", s, flags=re.DOTALL)` for a literal `sep`. -/
def takeUntilSub (sep : List Char) : List Char → List Char
  | [] => []
  | c :: cs => if sep ≠ [] ∧ sep.isPrefixOf (c :: cs) then [] else c :: takeUntilSub sep cs

/-- Fuelled worker for `pySplit`; `fuel` strictly exceeding the list length makes
the fuel irrelevant. Splits at each leftmost, non-overlapping occurrence of `sep`,
exactly like Python's `str.split(sep)` for a non-empty separator. -/
def pySplitF (sep : List Char) : Nat → List Char → List (List Char)
  | 0, s => [s]
  | _ + 1, [] => [[]]
  | fuel + 1, c :: cs =>
    if sep ≠ [] ∧ sep.isPrefixOf (c :: cs) then
      [] :: pySplitF sep fuel ((c :: cs).drop sep.length)
    else
      match pySplitF sep fuel cs with
      | [] => [[c]]
      | b :: bs => (c :: b) :: bs

/-- Python's `str.split(sep)` for a non-empty separator, on character lists. -/
def pySplit (sep s : List Char) : List (List Char) :=
  pySplitF sep (s.length + 1) s

/-! ### filter_engine.py -/

/-- The gazetteer of region names (filter_engine.py `INDIAN_STATES`). -/
def INDIAN_STATES : List String := [
  "Andhra Pradesh", "Arunachal Pradesh", "Assam", "Bihar", "Chhattisgarh",
  "Goa", "Gujarat", "Haryana", "Himachal Pradesh", "Jharkhand", "Karnataka",
  "Kerala", "Madhya Pradesh", "Maharashtra", "Manipur", "Meghalaya",
  "Mizoram", "Nagaland", "Odisha", "Punjab", "Rajasthan", "Sikkim",
  "Tamil Nadu", "Telangana", "Tripura", "Uttar Pradesh", "Uttarakhand",
  "West Bengal", "Delhi", "Jammu and Kashmir", "Ladakh", "Puducherry",
  "Chandigarh", "Andaman and Nicobar Islands",
  "Dadra and Nagar Haveli and Daman and Diu", "Lakshadweep"]

/-- The start delimiter the block splitter splits on (filter_engine.py line 41). -/
def TENDER_START : List Char := "--- TENDER START ---".data

/-- The end delimiter the block splitter truncates at (filter_engine.py line 44). -/
def TENDER_END : List Char := "--- TENDER END ---".data

/-- `parse_tender_blocks_from_tagged_file` (filter_engine.py lines 33-47), applied
to the file content (the missing-file and read-error paths, which return `[]`
before any splitting, are outside this model): split the content on the start
delimiter, keep the raw pieces whose `strip()` is non-empty, remove everything
from the first end delimiter on (`re.sub("--- TENDER END ---.*", "", _, DOTALL)`),
strip, and keep the non-empty results. -/
def parse_tender_blocks_from_tagged_file (content : String) : List String :=
  let raw_blocks := (pySplit TENDER_START content.data).filter (fun b => !(pyStrip b).isEmpty)
  ((raw_blocks.map (fun b => pyStrip (takeUntilSub TENDER_END b))).filter
    (fun b => !b.isEmpty)).map (fun b => String.mk b)

/-- A word character for the purposes of the regex `\b` boundary (`[A-Za-z0-9_]`;
the gazetteer and the department strings are ASCII, so Python's Unicode `\w`
coincides with this on all inputs of interest). -/
def isWordChar (c : Char) : Bool := c.isAlphanum || c == '_'

/-- `re.search(r'\b' + re.escape(pat) + r'\b', hay, re.IGNORECASE)` viewed as a
Boolean: some position of `hay` case-insensitively starts with `pat` and has a
word boundary on both sides (filter_engine.py line 107). -/
def wordBoundarySearch (hay pat : String) : Bool :=
  let h := hay.data
  let hl := h.map Char.toLower
  let pl := pat.data.map Char.toLower
  (List.range (h.length + 1)).any (fun i =>
    pl.isPrefixOf (hl.drop i) &&
    (i == 0 || !isWordChar (h.getD (i - 1) ' ')) &&
    (decide (h.length ≤ i + pat.data.length) || !isWordChar (h.getD (i + pat.data.length) ' ')))

/-- The state-derivation step of `extract_tender_info_from_tagged_block`
(filter_engine.py lines 104-110): if the department is not the sentinel, the
first gazetteer entry that word-boundary-matches (case-insensitively) inside the
department text becomes the state; otherwise the state stays `"N/A"`. -/
def deriveStateFromDepartment (department : String) : String :=
  if department ≠ "N/A" then
    match INDIAN_STATES.find? (fun st => wordBoundarySearch department st) with
    | some s => s
    | none => "N/A"
  else "N/A"

/-- A tender record as produced by `extract_tender_info_from_tagged_block`
(filter_engine.py lines 59-63): every field is a string, defaulted to `"N/A"`. -/
structure Tender where
  start_date : String
  end_date : String
  opening_date : String
  title : String
  tender_id : String
  department : String
  state : String
  link : String
deriving DecidableEq, Repr

/-- A calendar date as produced by `datetime.date`. -/
structure PDate where
  year : Nat
  month : Nat
  day : Nat
deriving DecidableEq, Repr

def isLeapYear (y : Nat) : Bool :=
  (y % 4 == 0 && y % 100 != 0) || (y % 400 == 0)

def daysInMonth (y m : Nat) : Nat :=
  if m = 2 then (if isLeapYear y then 29 else 28)
  else if m = 4 ∨ m = 6 ∨ m = 9 ∨ m = 11 then 30
  else 31

/-- Strict `<` on dates (year, then month, then day), as on `datetime.date`. -/
def dateLt (a b : PDate) : Bool :=
  if a.year ≠ b.year then decide (a.year < b.year)
  else if a.month ≠ b.month then decide (a.month < b.month)
  else decide (a.day < b.day)

/-- Month abbreviations recognised by `strptime`'s `%b` (C locale), lowercase. -/
def MONTH_ABBRS : List String :=
  ["jan", "feb", "mar", "apr", "may", "jun", "jul", "aug", "sep", "oct", "nov", "dec"]

def monthOfAbbr (ms : List Char) : Option Nat :=
  match MONTH_ABBRS.findIdx? (fun m => m.data = ms.map Char.toLower) with
  | some i => some (i + 1)
  | none => none

/-- `datetime.strptime(s, "%d-%b-%Y").date()`: a 1-2 digit day in 1..31, a
case-insensitive month abbreviation, a 4 digit year (with year ≥ 1 and the day
within the month, as validated by the `datetime` constructor); the whole string
must be consumed. `none` models the `ValueError`. -/
def parseDMY (s : String) : Option PDate :=
  match splitOnChar '-' s.data with
  | [ds, ms, ys] =>
    if ds.length ≤ 2 ∧ digitsOnly ds = true ∧ ys.length = 4 ∧ digitsOnly ys = true then
      match monthOfAbbr ms with
      | some m =>
        let d := natOfDigits ds
        let y := natOfDigits ys
        if 1 ≤ d ∧ d ≤ 31 ∧ 1 ≤ y ∧ d ≤ daysInMonth y m then some ⟨y, m, d⟩ else none
      | none => none
    else none
  | _ => none

/-- `datetime.strptime(s, "%Y-%m-%d").date()`: 4 digit year, 1-2 digit month in
1..12, 1-2 digit day valid for that month; `none` models the `ValueError`. -/
def parseYMD (s : String) : Option PDate :=
  match splitOnChar '-' s.data with
  | [ys, ms, ds] =>
    if ys.length = 4 ∧ digitsOnly ys = true ∧ ms.length ≤ 2 ∧ digitsOnly ms = true ∧
        ds.length ≤ 2 ∧ digitsOnly ds = true then
      let y := natOfDigits ys
      let m := natOfDigits ms
      let d := natOfDigits ds
      if 1 ≤ m ∧ m ≤ 12 ∧ 1 ≤ d ∧ d ≤ 31 ∧ 1 ≤ y ∧ d ≤ daysInMonth y m then
        some ⟨y, m, d⟩
      else none
    else none
  | _ => none

/-- Python's `s.split(" ")[0]` (matches_filters parses only the date part of the
publish date string, dropping any time-of-day after the first space). -/
def firstSpaceToken (s : String) : String :=
  String.mk (s.data.takeWhile (fun c => c ≠ ' '))

/-- The publish date `matches_filters` works with (filter_engine.py lines
125-129): parse the first space-separated token of the `start_date` field with
`"%d-%b-%Y"`, unless the field is empty or the `"N/A"` sentinel. -/
def publishDateOf (startDateField : String) : Option PDate :=
  if startDateField ≠ "" ∧ startDateField ≠ "N/A" then parseDMY (firstSpaceToken startDateField)
  else none

/-- The state-filter early return of `matches_filters` (filter_engine.py lines
119-120): a truthy filter string whose lowercase form is not a substring of the
lowercased state field rejects the record. -/
def stateExcluded (state_filter : Option String) (state : String) : Bool :=
  match state_filter with
  | none => false
  | some sf => sf ≠ "" && !(containsSub (strToLower state) (strToLower sf))

/-- The start-bound check (filter_engine.py lines 131-134): only applied when a
truthy bound string was supplied and the publish date parsed; a bound string
that fails to parse is silently ignored (`except ValueError: pass`). The
shipped file's indentation is mangled at these lines (an indented block after
an inline `try:` suite); this follows their evident control flow. -/
def startExcluded (start_date_str : Option String) (pub : Option PDate) : Bool :=
  match start_date_str, pub with
  | some sd, some pd =>
    sd ≠ "" && (match parseYMD sd with
      | some fs => dateLt pd fs
      | none => false)
  | _, _ => false

/-- The end-bound check (filter_engine.py lines 135-138), symmetric to
`startExcluded` with the comparison `tender_publish_date > filter_end_date`. -/
def endExcluded (end_date_str : Option String) (pub : Option PDate) : Bool :=
  match end_date_str, pub with
  | some ed, some pd =>
    ed ≠ "" && (match parseYMD ed with
      | some fe => dateLt fe pd
      | none => false)
  | _, _ => false

/-- The searched text of the keyword filter (filter_engine.py line 141):
`" ".join` of title, tender_id, department, state and link. -/
def searchContentOf (t : Tender) : String :=
  String.intercalate " " [t.title, t.tender_id, t.department, t.state, t.link]

/-- Lazy evaluation of `any(re.search(kw, content, re.IGNORECASE) for kw in
keywords)`: patterns are compiled one at a time; a match short-circuits with
`.ok true` before later patterns are compiled; a pattern whose compilation
fails (`compile kw = none`) raises `re.error`, modelled as `.error ()`. -/
def anyRegexSearch (compile : String → Option (String → Bool)) :
    List String → String → Except Unit Bool
  | [], _ => .ok false
  | kw :: rest, content =>
    match compile kw with
    | none => .error ()
    | some matcher =>
      if matcher content then .ok true else anyRegexSearch compile rest content

/-- The keyword section of `matches_filters` (filter_engine.py lines 140-153):
with a non-empty keyword list, empty search text fails the record; in regex mode
a raised `re.error` is caught and fails the record; in literal mode any keyword
must occur case-insensitively in the search text. -/
def keywordPass (compile : String → Option (String → Bool)) (keywords : List String)
    (use_regex : Bool) (content : String) : Bool :=
  if keywords ≠ [] then
    if content = "" then false
    else if use_regex then
      match anyRegexSearch compile keywords content with
      | .error _ => false
      | .ok b => b
    else keywords.any (fun kw => containsSub (strToLower content) (strToLower kw))
  else true

/-- `matches_filters` (filter_engine.py lines 116-154). The early `return False`
branches become nested conditionals; `compile` is the regex-compilation oracle. -/
def matches_filters (compile : String → Option (String → Bool)) (tender : Tender)
    (keywords : List String) (use_regex : Bool) (state_filter : Option String)
    (start_date_str end_date_str : Option String) : Bool :=
  if stateExcluded state_filter tender.state then false
  else
    let pub := publishDateOf tender.start_date
    if startExcluded start_date_str pub then false
    else if endExcluded end_date_str pub then false
    else keywordPass compile keywords use_regex (searchContentOf tender)

/-- The segments the block splitter is claimed to return: for each occurrence of
the start delimiter, the text up to the earlier of the next end delimiter or the
next start delimiter, stripped, keeping the non-blank ones. Follows the claim's
words; it differs from `parse_tender_blocks_from_tagged_file` only in dropping
the text that precedes the first start delimiter. -/
def claimedSegments (content : String) : List String :=
  (((pySplit TENDER_START content.data).drop 1).map
      (fun b => pyStrip (takeUntilSub TENDER_END b))).filter (fun b => !b.isEmpty)
    |>.map (fun b => String.mk b)

/-- The pseudo-block the splitter produces from the text before the first start
delimiter (`str.split` keeps that prefix as its first piece, and the splitter
treats it like any other piece). -/
def leadingBlock (content : String) : List String :=
  match pySplit TENDER_START content.data with
  | [] => []
  | h :: _ =>
    if !(pyStrip h).isEmpty then
      (if !(pyStrip (takeUntilSub TENDER_END h)).isEmpty then
        [String.mk (pyStrip (takeUntilSub TENDER_END h))] else [])
    else []

/-! ### scrape.py — batch orchestrator -/

def MAX_PAGES_TO_FETCH : Nat := 150

def CONCURRENT_FETCHES : Nat := 5

/-- The "no records" phrase heuristic (scrape.py line 223). -/
def noRecordsPhrase (content : String) : Bool :=
  containsSub content "No Records Found" || containsSub content "No Tenders Available"

/-- Why the orchestrator stopped (scrape.py lines 223-235). -/
inductive StopKind where
  | noRecords
  | shortContent
  | duplicate
deriving DecidableEq, Repr

/-- The orchestrator's state. `saved` are the pages persisted to page files (in
persistence order), `last` the content of the immediately preceding successfully
persisted page (standing for `last_valid_content_hash`, with the hash modelled
injectively), `stop` the stop signal and its triggering page, and `fetched` the
pages for which a fetch task was dispatched in some batch. -/
structure OrchState where
  saved : List (Nat × String)
  last : Option String
  stop : Option (StopKind × Nat)
  fetched : List Nat
deriving DecidableEq, Repr

/-- Processing of one resolved fetch result (scrape.py lines 217-249). Once a
stop signal is set the remaining results of the batch are skipped (the `break`
in the result loop). A `none` content is a permanently failed page and is
skipped. Otherwise the stop checks run in source order: "no records" phrase,
short content (< 100 chars), duplicate of the last persisted content; a page
passing all three is persisted and becomes the new `last`. -/
def processResult (st : OrchState) (pr : Nat × Option String) : OrchState :=
  if st.stop.isSome then st
  else
    match pr.2 with
    | none => st
    | some content =>
      if noRecordsPhrase content then { st with stop := some (StopKind.noRecords, pr.1) }
      else if content.length < 100 then { st with stop := some (StopKind.shortContent, pr.1) }
      else if st.last = some content then { st with stop := some (StopKind.duplicate, pr.1) }
      else { st with saved := st.saved ++ [(pr.1, content)], last := some content }

/-- One batch: the pages `start, start+1, …` up to `CONCURRENT_FETCHES` of them,
clipped at `MAX_PAGES_TO_FETCH` (scrape.py lines 197-205). -/
def batchPages (start : Nat) : List Nat :=
  List.range' start (min CONCURRENT_FETCHES (MAX_PAGES_TO_FETCH + 1 - start))

/-- The batch loop of `fetch_pages_concurrently` (scrape.py lines 192-253),
recursing on structural fuel (any fuel above `MAX_PAGES_TO_FETCH` is enough,
since `start` grows each round): dispatch a batch (recorded in `fetched`),
process its results in page order, and continue with the next batch unless a
stop signal was raised or the page limit is passed. -/
def runBatchesAux (f : Nat → Option String) : Nat → Nat → OrchState → OrchState
  | 0, _, st => st
  | fuel + 1, start, st =>
    if MAX_PAGES_TO_FETCH < start then st
    else
      let batch := batchPages start
      let st1 : OrchState := { st with fetched := st.fetched ++ batch }
      let st2 := batch.foldl (fun s p => processResult s (p, f p)) st1
      if st2.stop.isSome then st2
      else runBatchesAux f fuel (start + CONCURRENT_FETCHES) st2

/-- `fetch_pages_concurrently` over a fetch oracle `f` (`f p` is the cleaned
text of page `p`, or `none` if the page failed permanently after its retries). -/
def fetch_pages_concurrently (f : Nat → Option String) : OrchState :=
  runBatchesAux f (MAX_PAGES_TO_FETCH + 1) 1 ⟨[], none, none, []⟩

/-! ### scrape.py — merge and cleanup -/

/-- `natural_sort_key` (scrape.py lines 133-138): the first run of digits in the
filename, or 999999 if there is none. -/
def natural_sort_key (filename : String) : Nat :=
  match (filename.data.dropWhile (fun c => !c.isDigit)).takeWhile Char.isDigit with
  | [] => 999999
  | ds => ((String.mk ds).toNat?).getD 999999

/-- Insertion step of the stable sort of page files by page number. -/
def insertPage (x : Nat × String) : List (Nat × String) → List (Nat × String)
  | [] => [x]
  | y :: ys => if x.1 ≤ y.1 then x :: y :: ys else y :: insertPage x ys

/-- Page files sorted by their numeric page index (scrape.py lines 287-291; the
files are named `Page_{n}.txt`, so `natural_sort_key` yields the page number,
which is the first component here). -/
def sortPages : List (Nat × String) → List (Nat × String)
  | [] => []
  | x :: xs => insertPage x (sortPages xs)

/-- Accumulator of the merge loop: `seen` holds the contents whose hash is in
`seen_content_hashes` (hash modelled injectively), `blocks` the appended page
blocks in order, `mergedCount` the count of uniquely merged pages. -/
structure MergeState where
  seen : List String
  blocks : List (Nat × String)
  mergedCount : Nat

/-- One iteration of the merge loop (scrape.py lines 305-329): append the page's
content to the corpus only if it is non-empty and its hash is unseen; the source
page file is deleted either way. -/
def mergeStep (st : MergeState) (file : Nat × String) : MergeState :=
  if file.2 ≠ "" ∧ ¬ st.seen.contains file.2 then
    { seen := file.2 :: st.seen,
      blocks := st.blocks ++ [file],
      mergedCount := st.mergedCount + 1 }
  else st

/-- The separator written before a merged page's content (scrape.py line 312). -/
def pageHeader (n : Nat) : String :=
  "======== Start of Content from Page " ++ toString n ++ " ========\n\n"

/-- The separator written after a merged page's content (scrape.py line 314). -/
def pageFooter (n : Nat) : String :=
  "======== End of Content from Page " ++ toString n ++ " ========\n\n"

/-- The corpus text produced by the writes of the merge loop. -/
def renderBlocks (blocks : List (Nat × String)) : String :=
  String.join (blocks.map (fun b => pageHeader b.1 ++ b.2 ++ "\n\n" ++ pageFooter b.1))

/-- The observable outcome of `merge_and_cleanup`: the returned pair
`(merged_count, final_output_path)` plus, for specification purposes, the
appended page blocks and the rendered corpus text. -/
structure MergeOutcome where
  mergedCount : Nat
  corpusPath : Option String
  blocks : List (Nat × String)
  corpusText : String
deriving DecidableEq, Repr

/-- `merge_and_cleanup` (scrape.py lines 268-339) over the directory-existence
flag and the page files found by the `Page_*.txt` glob, given as
(page number, content) pairs. A missing raw-pages directory or an empty file
list returns `(0, None)` before the corpus file is created; otherwise the files
are processed in page order and the corpus path is returned. I/O failures
(`OSError` branches) are outside this model. -/
def merge_and_cleanup (dateStr : String) (rawPagesDirExists : Bool)
    (pageFiles : List (Nat × String)) : MergeOutcome :=
  if !rawPagesDirExists then ⟨0, none, [], ""⟩
  else if pageFiles.isEmpty then ⟨0, none, [], ""⟩
  else
    let sorted := sortPages pageFiles
    let final := sorted.foldl mergeStep ⟨[], [], 0⟩
    ⟨final.mergedCount, some ("Final_Tender_List_" ++ dateStr ++ ".txt"),
      final.blocks, renderBlocks final.blocks⟩

/-! ### dashboard.py — filtered-file block parser -/

/-- A tender dictionary as built by `_parse_single_tender_block`
(dashboard.py lines 158-166). -/
structure DashTender where
  raw_block_header : String
  start_date : String
  end_date : String
  opening_date : String
  title : String
  tender_id : String
  department : String
deriving DecidableEq, Repr

/-- `TENDER_ID_PATTERN.search` at position `i`: the pattern
`\[Tender ID:\s*([^\]]+)\]` (IGNORECASE) matches at `i` when `[Tender ID:`
occurs there case-insensitively and a `]` follows with at least one character
in between; the net value of `group(1)` is that segment (before stripping). -/
def tenderIdMatchAt (low orig : List Char) (i : Nat) : Option (List Char) :=
  if "[tender id:".data.isPrefixOf (low.drop i) then
    let rest := orig.drop (i + 11)
    let seg := rest.takeWhile (fun c => c ≠ ']')
    if !seg.isEmpty ∧ seg.length < rest.length then some seg else none
  else none

/-- `TENDER_ID_PATTERN.search(line)` followed by `.group(1).strip()`
(dashboard.py lines 69 and 179-181): leftmost match wins. -/
def tenderIdSearch (line : String) : Option String :=
  let orig := line.data
  let low := orig.map Char.toLower
  ((List.range (orig.length + 1)).findSome? (tenderIdMatchAt low orig)).map
    (fun seg => String.mk (pyStrip seg))

/-- `DEPARTMENT_PATTERN.search` at position `i`: the pattern
`(?:Department|Organisation Name):\s*(.*)` (IGNORECASE); on a match the net
value of `group(1)` after `.strip()` is the rest of the line after the colon,
stripped. -/
def deptMatchAt (low orig : List Char) (i : Nat) : Option (List Char) :=
  if "department:".data.isPrefixOf (low.drop i) then some (orig.drop (i + 11))
  else if "organisation name:".data.isPrefixOf (low.drop i) then some (orig.drop (i + 18))
  else none

/-- `DEPARTMENT_PATTERN.search(line)` followed by `.group(1).strip()`
(dashboard.py lines 70 and 184-186). -/
def deptSearch (line : String) : Option String :=
  let orig := line.data
  let low := orig.map Char.toLower
  ((List.range (orig.length + 1)).findSome? (deptMatchAt low orig)).map
    (fun rest => String.mk (pyStrip rest))

/-- `TITLE_PATTERN.match(line)` followed by `.group(1).strip()` (dashboard.py
lines 68 and 189-194): the pattern `^\s*\[([^\]]+)\]` anchored at the start. -/
def titleMatch (line : String) : Option String :=
  match line.data.dropWhile isPyWs with
  | '[' :: rest =>
    let seg := rest.takeWhile (fun c => c ≠ ']')
    if !seg.isEmpty ∧ seg.length < rest.length then some (String.mk (pyStrip seg)) else none
  | _ => none

/-- The title attempt of the per-line loop (dashboard.py lines 189-194). -/
def procLineTitle (t : DashTender) (title_found : Bool) (line : String) : DashTender × Bool :=
  match titleMatch line with
  | some v => if !title_found then ({ t with title := v }, true) else (t, title_found)
  | none => (t, title_found)

/-- The department attempt of the per-line loop (dashboard.py lines 184-187):
a first department match ends the line's processing (`continue`); otherwise the
title attempt runs on the same line. -/
def procLineDept (t : DashTender) (title_found : Bool) (line : String) : DashTender × Bool :=
  match deptSearch line with
  | some v =>
    if t.department = "N/A" then ({ t with department := v }, title_found)
    else procLineTitle t title_found line
  | none => procLineTitle t title_found line

/-- One line of the field-extraction loop (dashboard.py lines 177-194): the
first `[Tender ID: …]` match sets the identifier and ends the line (`continue`);
a line with an identifier match when the identifier is already set falls through
to the department and title attempts. -/
def procLine (st : DashTender × Bool) (line : String) : DashTender × Bool :=
  match tenderIdSearch line with
  | some v =>
    if st.1.tender_id = "N/A" then ({ st.1 with tender_id := v }, st.2)
    else procLineDept st.1 st.2 line
  | none => procLineDept st.1 st.2 line

/-- `_parse_single_tender_block` (dashboard.py lines 150-200): `None` on an
empty block; otherwise the header line, up to three date lines taken verbatim
from positions 1-3, and the identifier/department/title extracted by the
per-line loop over `block_lines[1:]`. -/
def _parse_single_tender_block (block_lines : List String) : Option DashTender :=
  match block_lines with
  | [] => none
  | b0 :: rest =>
    let base : DashTender :=
      { raw_block_header := b0,
        start_date := rest.getD 0 "N/A",
        end_date := rest.getD 1 "N/A",
        opening_date := rest.getD 2 "N/A",
        title := "N/A", tender_id := "N/A", department := "N/A" }
    some (rest.foldl procLine (base, false)).1

/-- The bracketed substrings of a line: for each `[`, the text up to the next
`]` when one exists. -/
def bracketedSubstrings (line : String) : List String :=
  (List.range line.data.length).filterMap (fun i =>
    match line.data.drop i with
    | '[' :: rest =>
      let seg := rest.takeWhile (fun c => c ≠ ']')
      if seg.length < rest.length then some (String.mk seg) else none
    | _ => none)

/-- Modelled from the spec: the "strict identifier pattern" of §4.2 — "a known
year prefix followed by a word token and two numeric segments" (for example
`2025_ABC_123456_1`). The extractor variant carrying this pattern is not among
the source files; this follows the spec's words, taking the 20xx years as the
known year prefixes and underscore-separated segments. -/
def strictIdPatternMatch (s : String) : Bool :=
  match splitOnChar '_' s.data with
  | [y, w, n1, n2] =>
    decide (y.length = 4) && ("20".data.isPrefixOf y) && y.all Char.isDigit &&
    !w.isEmpty && w.all (fun c => c.isAlphanum) &&
    !n1.isEmpty && n1.all Char.isDigit &&
    !n2.isEmpty && n2.all Char.isDigit
  | _ => false

/-! ### Concrete instances used by witnesses and counterexamples -/

/-- A fetch oracle on which every page has the same 100-character content. -/
def dupContent : String := String.mk (List.replicate 100 'a')

def dupFetch : Nat → Option String := fun _ => some dupContent

/-- A fetch oracle on which every page reports the no-records phrase. -/
def noRecFetch : Nat → Option String := fun _ => some "No Records Found"

/-- Two page files with distinct non-empty contents. -/
def c1pages : List (Nat × String) := [(1, "AAAA"), (2, "BBBB")]

/-- A corpus with non-blank text before the first start delimiter. -/
def c10content : String := "junk --- TENDER START --- A"

/-- A compile oracle under which `"alpha"` is a valid pattern matching any text
containing `alpha` case-insensitively, and every other pattern is invalid. -/
def compileDemo : String → Option (String → Bool) :=
  fun p => if p = "alpha" then some (fun c => containsSub (strToLower c) "alpha") else none

/-- A compile oracle under which every pattern is invalid. -/
def compileNone : String → Option (String → Bool) := fun _ => none

def t8demo : Tender :=
  { start_date := "N/A", end_date := "N/A", opening_date := "N/A",
    title := "Alpha Bridge Work", tender_id := "N/A", department := "N/A",
    state := "N/A", link := "N/A" }

def keralaDept : String := "Office of the Chief Engineer, Water Resources Department, Kerala"

def keralaTender : Tender :=
  { start_date := "N/A", end_date := "N/A", opening_date := "N/A",
    title := "Canal Work", tender_id := "N/A", department := keralaDept,
    state := deriveStateFromDepartment keralaDept, link := "N/A" }

def t2parsable : Tender :=
  { start_date := "15-Mar-2025", end_date := "N/A", opening_date := "N/A",
    title := "N/A", tender_id := "N/A", department := "N/A", state := "N/A", link := "N/A" }

def t2inRange : Tender :=
  { start_date := "10-Apr-2025", end_date := "N/A", opening_date := "N/A",
    title := "N/A", tender_id := "N/A", department := "N/A", state := "N/A", link := "N/A" }

def t2unparseable : Tender :=
  { start_date := "sometime soon", end_date := "N/A", opening_date := "N/A",
    title := "N/A", tender_id := "N/A", department := "N/A", state := "N/A", link := "N/A" }

/-- A block whose only bracketed substring is a `[Tender ID: …]` bracket that
does not match the spec's strict identifier pattern. -/
def c9block : List String :=
  ["1.", "12-Mar-2025", "13-Apr-2025", "14-Apr-2025", "[Tender ID: hello]"]

/-- A block with a title bracket and a department line but no identifier. -/
def c9noIdBlock : List String :=
  ["1.", "12-Mar-2025", "13-Apr-2025", "14-Apr-2025", "[Road Work]", "Department: PWD"]

/-! ### Lemmas about the string primitives -/

/-- `dropWhile` yields a suffix of the list. -/
theorem dropWhile_isSuffix (p : Char → Bool) (l : List Char) : l.dropWhile p <:+ l := by
  induction l with
  | nil => exact List.suffix_rfl
  | cons c cs ih =>
    by_cases h : p c
    · rw [List.dropWhile_cons_of_pos h]
      exact ih.trans (List.suffix_cons c cs)
    · rw [List.dropWhile_cons_of_neg h]

/-- Stripping yields a contiguous piece of the original list. -/
theorem pyStrip_isInfix (l : List Char) : pyStrip l <:+: l := by
  unfold pyStrip
  have h1 : l.dropWhile isPyWs <:+ l := dropWhile_isSuffix _ l
  have h2 : (l.dropWhile isPyWs).reverse.dropWhile isPyWs <:+ (l.dropWhile isPyWs).reverse :=
    dropWhile_isSuffix _ _
  have h3 : ((l.dropWhile isPyWs).reverse.dropWhile isPyWs).reverse <+: l.dropWhile isPyWs := by
    rw [← List.reverse_suffix, List.reverse_reverse]
    exact h2
  exact h3.isInfix.trans h1.isInfix

/-- The strip of a list is empty exactly when the list is all whitespace. -/
theorem pyStrip_eq_nil_iff (l : List Char) : pyStrip l = [] ↔ ∀ c ∈ l, isPyWs c := by
  unfold pyStrip
  constructor
  · intro h c hc
    have hrev : (l.dropWhile isPyWs).reverse.dropWhile isPyWs = [] := by
      have := congrArg List.reverse h
      rwa [List.reverse_reverse, List.reverse_nil] at this
    have hdrop : ∀ c ∈ l.dropWhile isPyWs, isPyWs c := by
      intro c hc
      exact List.dropWhile_eq_nil_iff.mp hrev c (List.mem_reverse.mpr hc)
    have : c ∈ l.takeWhile isPyWs ++ l.dropWhile isPyWs := by
      rw [List.takeWhile_append_dropWhile]; exact hc
    rcases List.mem_append.mp this with h1 | h2
    · exact List.mem_takeWhile_imp h1
    · exact hdrop c h2
  · intro h
    have h1 : l.dropWhile isPyWs = [] := List.dropWhile_eq_nil_iff.mpr h
    rw [h1]
    rfl

/-- An all-whitespace list strips to empty and so does its `takeUntilSub`. -/
theorem pyStrip_takeUntilSub_nil (sep : List Char) (l : List Char)
    (h : pyStrip l = []) : pyStrip (takeUntilSub sep l) = [] := by
  rw [pyStrip_eq_nil_iff] at h ⊢
  intro c hc
  apply h
  have : takeUntilSub sep l <+: l := by
    clear h hc
    induction l with
    | nil => simp [takeUntilSub]
    | cons a as ih =>
      unfold takeUntilSub
      by_cases hp : sep ≠ [] ∧ sep.isPrefixOf (a :: as) = true
      · rw [if_pos hp]; exact List.nil_prefix
      · rw [if_neg hp]; exact List.cons_prefix_cons.mpr ⟨rfl, ih⟩
  exact this.subset hc

/-- `takeUntilSub sep l` is a prefix of `l`. -/
theorem takeUntilSub_isPrefix (sep l : List Char) : takeUntilSub sep l <+: l := by
  induction l with
  | nil => simp [takeUntilSub]
  | cons a as ih =>
    unfold takeUntilSub
    by_cases hp : sep ≠ [] ∧ sep.isPrefixOf (a :: as) = true
    · rw [if_pos hp]; exact List.nil_prefix
    · rw [if_neg hp]; exact List.cons_prefix_cons.mpr ⟨rfl, ih⟩

/-- `hasInfix` is the Boolean form of `List.IsInfix`. -/
theorem hasInfix_iff (sep l : List Char) : hasInfix sep l = true ↔ sep <:+: l := by
  induction l with
  | nil =>
    simp only [hasInfix, List.isEmpty_iff]
    constructor
    · intro h; rw [h]
    · intro h; exact List.eq_nil_of_infix_nil h
  | cons c cs ih =>
    simp only [hasInfix, Bool.or_eq_true, List.isPrefixOf_iff_prefix, ih]
    rw [List.infix_cons_iff]

/-- No occurrence of `sep` survives truncation at the first occurrence of `sep`. -/
theorem hasInfix_takeUntilSub (sep l : List Char) (hsep : sep ≠ []) :
    hasInfix sep (takeUntilSub sep l) = false := by
  induction l with
  | nil =>
    simp [takeUntilSub, hasInfix, List.isEmpty_iff, hsep]
  | cons c cs ih =>
    unfold takeUntilSub
    by_cases hp : sep ≠ [] ∧ sep.isPrefixOf (c :: cs) = true
    · rw [if_pos hp]
      simp [hasInfix, List.isEmpty_iff, hsep]
    · rw [if_neg hp]
      have hnp : ¬ sep.isPrefixOf (c :: cs) = true := fun h => hp ⟨hsep, h⟩
      simp only [hasInfix, Bool.or_eq_false_iff]
      refine ⟨?_, ih⟩
      rw [Bool.eq_false_iff]
      intro habs
      apply hnp
      rw [List.isPrefixOf_iff_prefix] at habs ⊢
      have hpre : takeUntilSub sep cs <+: cs := takeUntilSub_isPrefix sep cs
      exact habs.trans (List.cons_prefix_cons.mpr ⟨rfl, hpre⟩)

/-- An infix of a `sep`-free list is `sep`-free. -/
theorem hasInfix_false_of_isInfix (sep l m : List Char) (hm : m <:+: l)
    (h : hasInfix sep l = false) : hasInfix sep m = false := by
  rw [Bool.eq_false_iff]
  intro habs
  have : sep <:+: l := ((hasInfix_iff sep m).mp habs).trans hm
  rw [Bool.eq_false_iff] at h
  exact h ((hasInfix_iff sep l).mpr this)

/-- With enough fuel, a `sep`-free list does not split. -/
theorem pySplitF_single (sep : List Char) :
    ∀ (fuel : Nat) (s : List Char), s.length < fuel → hasInfix sep s = false →
      pySplitF sep fuel s = [s] := by
  intro fuel
  induction fuel with
  | zero => intro s hs; omega
  | succ n ih =>
    intro s hs hinf
    match s with
    | [] => rfl
    | c :: cs =>
      simp only [hasInfix, Bool.or_eq_false_iff] at hinf
      unfold pySplitF
      rw [if_neg (fun hp => by rw [hinf.1] at hp; exact Bool.noConfusion hp.2)]
      rw [ih cs (by simpa using Nat.lt_of_succ_lt_succ hs) hinf.2]

/-- A `sep`-free list does not split. -/
theorem pySplit_single (sep s : List Char) (h : hasInfix sep s = false) :
    pySplit sep s = [s] :=
  pySplitF_single sep (s.length + 1) s (Nat.lt_succ_self _) h

/-- `pySplitF` always returns at least one piece. -/
theorem pySplitF_shape (sep : List Char) (fuel : Nat) (s : List Char) :
    ∃ h t, pySplitF sep fuel s = h :: t := by
  match fuel, s with
  | 0, s => exact ⟨s, [], rfl⟩
  | n + 1, [] => exact ⟨[], [], rfl⟩
  | n + 1, c :: cs =>
    unfold pySplitF
    by_cases hp : sep ≠ [] ∧ sep.isPrefixOf (c :: cs) = true
    · rw [if_pos hp]; exact ⟨[], _, rfl⟩
    · rw [if_neg hp]
      match pySplitF sep n cs with
      | [] => exact ⟨[c], [], rfl⟩
      | b :: bs => exact ⟨c :: b, bs, rfl⟩

/-- `pySplit` always returns the piece before the first separator occurrence,
followed by the later pieces. -/
theorem pySplit_shape (sep s : List Char) : ∃ h t, pySplit sep s = h :: t :=
  pySplitF_shape sep (s.length + 1) s

/-! ### The block splitter (claims C1 and C10) -/

/-- Raw pieces that strip to blank can be dropped before or after processing:
their truncated strip is blank as well, so the final non-blank filter removes
them either way. -/
theorem filter_map_strip_eq (t : List (List Char)) :
    (((t.filter (fun b => !(pyStrip b).isEmpty)).map
        (fun b => pyStrip (takeUntilSub TENDER_END b))).filter (fun b => !b.isEmpty)) =
    ((t.map (fun b => pyStrip (takeUntilSub TENDER_END b))).filter (fun b => !b.isEmpty)) := by
  induction t with
  | nil => rfl
  | cons b t ih =>
    by_cases hb : (pyStrip b).isEmpty
    · have hfb : pyStrip (takeUntilSub TENDER_END b) = [] :=
        pyStrip_takeUntilSub_nil TENDER_END b (List.isEmpty_iff.mp hb)
      rw [List.filter_cons, if_neg (by simp [hb]), List.map_cons, List.filter_cons,
        if_neg (by simp [hfb]), ih]
    · rw [List.filter_cons, if_pos (by simp [hb]), List.map_cons, List.map_cons,
        List.filter_cons, List.filter_cons, ih]

/-- Claim C10 (amended): the splitter returns the pseudo-block formed from the
text before the first start delimiter (when non-blank), followed by exactly the
non-blank segments lying strictly between each start delimiter and the earlier
of the next end delimiter or the next start delimiter; moreover no returned
block contains the end delimiter, so text following an end delimiter up to the
next start delimiter never appears in any block, while a block whose end
delimiter is absent is still returned. -/
theorem c10_splitter_characterization (content : String) :
    parse_tender_blocks_from_tagged_file content =
      leadingBlock content ++ claimedSegments content ∧
    (parse_tender_blocks_from_tagged_file content).all
      (fun b => !hasInfix TENDER_END b.data) = true := by
  constructor
  · obtain ⟨h, t, hsplit⟩ := pySplit_shape TENDER_START content.data
    unfold parse_tender_blocks_from_tagged_file leadingBlock claimedSegments
    rw [hsplit]
    simp only [List.drop_succ_cons, List.drop_zero]
    rw [← filter_map_strip_eq t]
    by_cases hh : (pyStrip h).isEmpty
    · rw [List.filter_cons, if_neg (by simp [hh]), if_neg (by simp [hh]), List.nil_append]
    · rw [List.filter_cons, if_pos (by simp [hh]), if_pos (by simp [hh]), List.map_cons,
        List.filter_cons]
      by_cases hq : (pyStrip (takeUntilSub TENDER_END h)).isEmpty
      · rw [if_neg (by simp [hq]), if_neg (by simp [hq]), List.nil_append]
      · rw [if_pos (by simp [hq]), if_pos (by simp [hq]), List.map_cons, List.cons_append,
          List.nil_append]
  · rw [List.all_eq_true]
    intro b hb
    unfold parse_tender_blocks_from_tagged_file at hb
    simp only [List.mem_map, List.mem_filter] at hb
    obtain ⟨l, ⟨hl, _⟩, hmk⟩ := hb
    obtain ⟨raw, _, hraw⟩ := hl
    have hfree : hasInfix TENDER_END (takeUntilSub TENDER_END raw) = false :=
      hasInfix_takeUntilSub TENDER_END raw (by decide)
    have hstrip : pyStrip (takeUntilSub TENDER_END raw) <:+: takeUntilSub TENDER_END raw :=
      pyStrip_isInfix _
    have : hasInfix TENDER_END (pyStrip (takeUntilSub TENDER_END raw)) = false :=
      hasInfix_false_of_isInfix _ _ _ hstrip hfree
    rw [← hmk, ← hraw]
    simp [this]

/-- Claim C10 as stated is false: on a corpus with non-blank text before the
first start delimiter, the splitter also returns that leading text as a block,
although it lies between no start delimiter and end delimiter. -/
theorem c10_leading_text_counterexample :
    parse_tender_blocks_from_tagged_file c10content = ["junk", "A"] ∧
    claimedSegments c10content = ["A"] ∧
    parse_tender_blocks_from_tagged_file c10content ≠ claimedSegments c10content := by
  refine ⟨by decide, by decide, by decide⟩

/-! ### Merge-corpus delimiters (claim C1) -/

/-- Claim C1 (amended): `merge_and_cleanup` writes
`======== Start of Content from Page N ========` /
`======== End of Content from Page N ========` separators, not the
`--- TENDER START ---` / `--- TENDER END ---` delimiters the block splitter
splits on; consequently, whenever the merged corpus does not itself contain the
splitter's start delimiter, re-splitting it yields at most one block — not one
block per merged tender block. -/
theorem c1_merge_corpus_resplit (dateStr : String) (dirExists : Bool)
    (pages : List (Nat × String))
    (h : hasInfix TENDER_START
      (merge_and_cleanup dateStr dirExists pages).corpusText.data = false) :
    (parse_tender_blocks_from_tagged_file
      (merge_and_cleanup dateStr dirExists pages).corpusText).length ≤ 1 := by
  unfold parse_tender_blocks_from_tagged_file
  rw [pySplit_single TENDER_START _ h]
  rw [List.length_map]
  refine le_trans (List.length_filter_le _ _) ?_
  rw [List.length_map]
  exact le_trans (List.length_filter_le _ _) (by rfl)

theorem c1_merge_corpus_resplit_witness :
    hasInfix TENDER_START (merge_and_cleanup "2025-01-01" true c1pages).corpusText.data
      = false ∧
    (parse_tender_blocks_from_tagged_file
      (merge_and_cleanup "2025-01-01" true c1pages).corpusText).length ≤ 1 :=
  ⟨by decide, c1_merge_corpus_resplit "2025-01-01" true c1pages (by decide)⟩

/-- Claim C1 as stated is false: merging two page files with distinct non-empty
contents merges two blocks, yet re-splitting the resulting corpus with the
filter engine's delimiters yields a single block, because the merge stage wraps
blocks in `======== … ========` page separators and never writes the
`--- TENDER START ---` delimiter the splitter expects. -/
theorem c1_merge_delimiters_counterexample :
    (merge_and_cleanup "2025-01-01" true c1pages).mergedCount = 2 ∧
    (parse_tender_blocks_from_tagged_file
      (merge_and_cleanup "2025-01-01" true c1pages).corpusText).length = 1 ∧
    hasInfix TENDER_START (merge_and_cleanup "2025-01-01" true c1pages).corpusText.data
      = false ∧
    containsSub (merge_and_cleanup "2025-01-01" true c1pages).corpusText
      "======== Start of Content from Page 1 ========" = true := by
  refine ⟨by decide, by decide, by decide, by decide⟩

/-! ### Date-range filtering (claim C2) -/

/-- Claim C2: if the record's `start_date` does not parse against the display
format `"%d-%b-%Y"` (applied to the text before the first space, so time-of-day
is ignored), the date bounds never exclude the record; if it parses, the record
is excluded exactly when the parsed date is strictly before the parsed lower
bound or strictly after the parsed upper bound. -/
theorem c2_date_range_semantics (compile : String → Option (String → Bool)) (t : Tender)
    (sd ed : String) :
    (publishDateOf t.start_date = none →
      ∀ sdo edo : Option String, matches_filters compile t [] false none sdo edo = true) ∧
    (∀ d lb ub : PDate, publishDateOf t.start_date = some d → parseYMD sd = some lb →
      parseYMD ed = some ub →
      matches_filters compile t [] false none (some sd) (some ed) =
        (!(dateLt d lb) && !(dateLt ub d))) := by
  constructor
  · intro hpub sdo edo
    cases sdo <;> cases edo <;>
      simp [matches_filters, stateExcluded, startExcluded, endExcluded, keywordPass, hpub]
  · intro d lb ub hpub hlb hub
    have hsd : sd ≠ "" := by
      intro he
      rw [he, show parseYMD "" = none from rfl] at hlb
      exact Option.noConfusion hlb
    have hed : ed ≠ "" := by
      intro he
      rw [he, show parseYMD "" = none from rfl] at hub
      exact Option.noConfusion hub
    cases hd1 : dateLt d lb <;> cases hd2 : dateLt ub d <;>
      simp [matches_filters, stateExcluded, startExcluded, endExcluded, keywordPass,
        hpub, hlb, hub, hsd, hed, hd1, hd2]

theorem c2_date_range_semantics_witness :
    matches_filters compileNone t2parsable [] false none
      (some "2025-04-01") (some "2025-04-30") = false ∧
    matches_filters compileNone t2inRange [] false none
      (some "2025-04-01") (some "2025-04-30") = true ∧
    matches_filters compileNone t2unparseable [] false none
      (some "2025-04-01") (some "2025-04-30") = true := by
  refine ⟨?_, ?_, ?_⟩
  · have h := (c2_date_range_semantics compileNone t2parsable "2025-04-01" "2025-04-30").2
      ⟨2025, 3, 15⟩ ⟨2025, 4, 1⟩ ⟨2025, 4, 30⟩ (by decide) (by decide) (by decide)
    rw [h]; decide
  · have h := (c2_date_range_semantics compileNone t2inRange "2025-04-01" "2025-04-30").2
      ⟨2025, 4, 10⟩ ⟨2025, 4, 1⟩ ⟨2025, 4, 30⟩ (by decide) (by decide) (by decide)
    rw [h]; decide
  · exact (c2_date_range_semantics compileNone t2unparseable "2025-04-01" "2025-04-30").1
      (by decide) (some "2025-04-01") (some "2025-04-30")

/-! ### State filtering (claim C7) -/

/-- Claim C7: with no other criteria, the record passes exactly when no state
filter is supplied (or it is the empty string, which the code treats as
absent), or the filter's state name occurs case-insensitively inside the
record's derived state; in particular a record whose department text contains
"Kerala" derives state "Kerala", is excluded under `state="Maharashtra"` and
included under `state="Kerala"`. -/
theorem c7_state_filter_semantics (compile : String → Option (String → Bool)) (t : Tender)
    (sf : String) :
    matches_filters compile t [] false none none none = true ∧
    (matches_filters compile t [] false (some sf) none none = true ↔
      sf = "" ∨ containsSub (strToLower t.state) (strToLower sf) = true) ∧
    deriveStateFromDepartment keralaDept = "Kerala" ∧
    matches_filters compileNone keralaTender [] false (some "Maharashtra") none none = false ∧
    matches_filters compileNone keralaTender [] false (some "Kerala") none none = true := by
  refine ⟨?_, ?_, by decide, by decide, by decide⟩
  · simp [matches_filters, stateExcluded, startExcluded, endExcluded, keywordPass]
  · by_cases hsf : sf = ""
    · subst hsf
      simp [matches_filters, stateExcluded, startExcluded, endExcluded, keywordPass]
    · cases hc : containsSub (strToLower t.state) (strToLower sf) <;>
        simp [matches_filters, stateExcluded, startExcluded, endExcluded, keywordPass, hsf, hc]

/-! ### Invalid regex patterns (claim C8) -/

/-- Claim C8 (amended): in regex mode, whenever the lazy left-to-right
evaluation of the keyword patterns reaches a pattern whose compilation fails —
that is, no earlier pattern already matched — `matches_filters` returns `false`
for that record instead of raising, for every combination of the other filters;
the error is confined to the record. (As stated the claim is false: if an
earlier pattern already matched, `any(...)` short-circuits and the record
passes without the invalid pattern ever being compiled.) -/
theorem c8_invalid_regex_fail_closed (compile : String → Option (String → Bool)) (t : Tender)
    (keywords : List String) (sf sd ed : Option String)
    (h : anyRegexSearch compile keywords (searchContentOf t) = Except.error ()) :
    matches_filters compile t keywords true sf sd ed = false := by
  have hne : keywords ≠ [] := by
    intro he
    rw [he] at h
    exact Except.noConfusion h
  unfold matches_filters
  cases h1 : stateExcluded sf t.state
  · cases h2 : startExcluded sd (publishDateOf t.start_date)
    · cases h3 : endExcluded ed (publishDateOf t.start_date)
      · simp only [h1, h2, h3, Bool.false_eq_true, if_false]
        unfold keywordPass
        rw [if_pos hne]
        by_cases hc : searchContentOf t = ""
        · rw [if_pos hc]
        · rw [if_neg hc, if_pos rfl, h]
      · simp [h3]
    · simp [h2]
  · simp [h1]

theorem c8_invalid_regex_fail_closed_witness :
    matches_filters compileNone t8demo ["("] true none none none = false :=
  c8_invalid_regex_fail_closed compileNone t8demo ["("] none none none rfl

/-- Claim C8 as stated is false: with the keyword list `["alpha", "("]`, whose
second pattern is an invalid regular expression, a record whose search text
matches the first pattern is accepted — the invalid pattern is never compiled,
so the record does not fail the match. -/
theorem c8_invalid_regex_counterexample :
    (compileDemo "(").isNone = true ∧
    "(" ∈ (["alpha", "("] : List String) ∧
    matches_filters compileDemo t8demo ["alpha", "("] true none none none = true := by
  refine ⟨rfl, by decide, by decide⟩

/-! ### Orchestrator invariants (claims C3 and C4) -/

/-- After a stop signal, result processing is a no-op (the `break`). -/
theorem processResult_of_stop (st : OrchState) (pr : Nat × Option String)
    (h : st.stop.isSome = true) : processResult st pr = st := by
  unfold processResult
  rw [if_pos h]

theorem foldl_processResult_of_stop (f : Nat → Option String) (l : List Nat) (st : OrchState)
    (h : st.stop.isSome = true) :
    l.foldl (fun s q => processResult s (q, f q)) st = st := by
  induction l with
  | nil => rfl
  | cons q qs ih => rw [List.foldl_cons, processResult_of_stop st _ h, ih]

/-- Processing one result either skips the page, raises a stop signal naming
that page, or persists that page's content. -/
theorem processResult_cases (st : OrchState) (q : Nat) (oc : Option String)
    (h : st.stop = none) :
    processResult st (q, oc) = st ∨
    (∃ k, processResult st (q, oc) = { st with stop := some (k, q) }) ∨
    (∃ c, oc = some c ∧ processResult st (q, oc) =
      { st with saved := st.saved ++ [(q, c)], last := some c }) := by
  cases oc with
  | none =>
    left
    simp [processResult, h]
  | some c =>
    have hter : processResult st (q, some c) =
        (if noRecordsPhrase c then { st with stop := some (StopKind.noRecords, q) }
        else if c.length < 100 then { st with stop := some (StopKind.shortContent, q) }
        else if st.last = some c then { st with stop := some (StopKind.duplicate, q) }
        else { st with saved := st.saved ++ [(q, c)], last := some c }) := by
      unfold processResult
      rw [if_neg (by rw [h]; exact Bool.noConfusion)]
    rw [hter]
    by_cases hph : noRecordsPhrase c
    · rw [if_pos hph]; exact Or.inr (Or.inl ⟨StopKind.noRecords, rfl⟩)
    · rw [if_neg hph]
      by_cases hlen : c.length < 100
      · rw [if_pos hlen]; exact Or.inr (Or.inl ⟨StopKind.shortContent, rfl⟩)
      · rw [if_neg hlen]
        by_cases hdup : st.last = some c
        · rw [if_pos hdup]; exact Or.inr (Or.inl ⟨StopKind.duplicate, rfl⟩)
        · rw [if_neg hdup]; exact Or.inr (Or.inr ⟨c, rfl, rfl⟩)

/-- Batch processing invariant: processing the results of pages
`s, …, s+n-1` in page order leaves `fetched` unchanged, extends `saved` only
with pages of the batch, and, if it raises a stop signal at page `p`, then `p`
is in the batch and every page persisted during the batch precedes `p`. -/
theorem processBatch_inv (f : Nat → Option String) :
    ∀ (n s : Nat) (st : OrchState), st.stop = none →
    ((List.range' s n).foldl (fun a q => processResult a (q, f q)) st).fetched = st.fetched ∧
    ∃ Δ, ((List.range' s n).foldl (fun a q => processResult a (q, f q)) st).saved
        = st.saved ++ Δ ∧
      (∀ qc ∈ Δ, s ≤ qc.1 ∧ qc.1 < s + n) ∧
      (∀ k p, ((List.range' s n).foldl (fun a q => processResult a (q, f q)) st).stop
          = some (k, p) → s ≤ p ∧ p < s + n ∧ ∀ qc ∈ Δ, qc.1 < p) := by
  intro n
  induction n with
  | zero =>
    intro s st h
    refine ⟨rfl, [], by simp, by simp, ?_⟩
    intro k p hp
    rw [show List.range' s 0 = [] from rfl, List.foldl_nil, h] at hp
    exact Option.noConfusion hp
  | succ n ih =>
    intro s st h
    rw [List.range'_succ, List.foldl_cons]
    rcases processResult_cases st s (f s) h with hcase | ⟨k0, hcase⟩ | ⟨c, _, hcase⟩
    · rw [hcase]
      obtain ⟨hf, Δ, hsv, hbnd, hstop⟩ := ih (s + 1) st h
      refine ⟨hf, Δ, hsv, ?_, ?_⟩
      · intro qc hqc
        have := hbnd qc hqc
        omega
      · intro k p hp
        obtain ⟨h1, h2, h3⟩ := hstop k p hp
        exact ⟨by omega, by omega, h3⟩
    · rw [hcase, foldl_processResult_of_stop f _ _ (by rfl)]
      refine ⟨rfl, [], by simp, by simp, ?_⟩
      intro k p hp
      simp only [Option.some.injEq, Prod.mk.injEq] at hp
      refine ⟨by omega, by omega, by simp⟩
    · rw [hcase]
      have h1 : ({ st with saved := st.saved ++ [(s, c)], last := some c } : OrchState).stop
          = none := h
      obtain ⟨hf, Δ, hsv, hbnd, hstop⟩ := ih (s + 1) _ h1
      refine ⟨hf, (s, c) :: Δ, ?_, ?_, ?_⟩
      · rw [hsv]
        simp [List.append_assoc]
      · intro qc hqc
        rcases List.mem_cons.mp hqc with hqc | hqc
        · subst hqc; constructor <;> omega
        · have := hbnd qc hqc
          omega
      · intro k p hp
        obtain ⟨hp1, hp2, hp3⟩ := hstop k p hp
        refine ⟨by omega, by omega, ?_⟩
        intro qc hqc
        rcases List.mem_cons.mp hqc with hqc | hqc
        · subst hqc; omega
        · exact hp3 qc hqc

/-- Unfolding lemma for one round of the batch loop. -/
theorem runBatchesAux_step (f : Nat → Option String) (fuel start : Nat) (st : OrchState)
    (h : ¬ MAX_PAGES_TO_FETCH < start) :
    runBatchesAux f (fuel + 1) start st =
      (if ((batchPages start).foldl (fun s q => processResult s (q, f q))
            { st with fetched := st.fetched ++ batchPages start }).stop.isSome = true then
        (batchPages start).foldl (fun s q => processResult s (q, f q))
          { st with fetched := st.fetched ++ batchPages start }
      else
        runBatchesAux f fuel (start + CONCURRENT_FETCHES)
          ((batchPages start).foldl (fun s q => processResult s (q, f q))
            { st with fetched := st.fetched ++ batchPages start })) := by
  conv_lhs => unfold runBatchesAux
  rw [if_neg h]

/-- Run-level invariant: if the run ends with a stop signal at page `p`, every
persisted page precedes `p` and every page ever dispatched to a batch is below
`p + CONCURRENT_FETCHES` (no batch after the one containing `p` is scheduled). -/
theorem runBatchesAux_inv (f : Nat → Option String) :
    ∀ (fuel start : Nat) (st : OrchState), st.stop = none →
    (∀ qc ∈ st.saved, qc.1 < start) → (∀ q ∈ st.fetched, q < start) →
    ∀ k p, (runBatchesAux f fuel start st).stop = some (k, p) →
      start ≤ p ∧ (∀ qc ∈ (runBatchesAux f fuel start st).saved, qc.1 < p) ∧
      (∀ q ∈ (runBatchesAux f fuel start st).fetched, q < p + CONCURRENT_FETCHES) := by
  intro fuel
  induction fuel with
  | zero =>
    intro start st h _ _ k p hp
    rw [show runBatchesAux f 0 start st = st from rfl, h] at hp
    exact Option.noConfusion hp
  | succ fuel ih =>
    intro start st h hsaved hfetched k p hp
    by_cases hgt : MAX_PAGES_TO_FETCH < start
    · rw [show runBatchesAux f (fuel + 1) start st = st from by
        conv_lhs => unfold runBatchesAux
        rw [if_pos hgt], h] at hp
      exact Option.noConfusion hp
    · rw [runBatchesAux_step f fuel start st hgt] at hp ⊢
      have hbatch : batchPages start =
          List.range' start (min CONCURRENT_FETCHES (MAX_PAGES_TO_FETCH + 1 - start)) := rfl
      have hn5 : min CONCURRENT_FETCHES (MAX_PAGES_TO_FETCH + 1 - start) ≤ CONCURRENT_FETCHES :=
        Nat.min_le_left _ _
      have hst1 : ({ st with fetched := st.fetched ++ batchPages start } : OrchState).stop
          = none := h
      obtain ⟨hf, Δ, hsv, hbnd, hstop⟩ := processBatch_inv f
        (min CONCURRENT_FETCHES (MAX_PAGES_TO_FETCH + 1 - start)) start
        { st with fetched := st.fetched ++ batchPages start } hst1
      rw [← hbatch] at hf hsv hstop
      have hmemb : ∀ q ∈ batchPages start,
          q < start + CONCURRENT_FETCHES := by
        intro q hq
        rw [hbatch] at hq
        obtain ⟨i, hi, hqeq⟩ := List.mem_range'.mp hq
        omega
      by_cases hstop2 : ((batchPages start).foldl (fun s q => processResult s (q, f q))
          { st with fetched := st.fetched ++ batchPages start }).stop.isSome = true
      · rw [if_pos hstop2] at hp ⊢
        obtain ⟨hp1, hp2, hΔ⟩ := hstop k p hp
        refine ⟨hp1, ?_, ?_⟩
        · intro qc hqc
          rw [hsv] at hqc
          rcases List.mem_append.mp hqc with hqc | hqc
          · have := hsaved qc hqc
            omega
          · exact hΔ qc hqc
        · intro q hq
          rw [hf] at hq
          rcases List.mem_append.mp hq with hq | hq
          · have := hfetched q hq
            omega
          · have := hmemb q hq
            omega
      · rw [if_neg hstop2] at hp ⊢
        have hnone : ((batchPages start).foldl (fun s q => processResult s (q, f q))
            { st with fetched := st.fetched ++ batchPages start }).stop = none :=
          Option.not_isSome_iff_eq_none.mp (by simpa using hstop2)
        have hsaved2 : ∀ qc ∈ ((batchPages start).foldl (fun s q => processResult s (q, f q))
            { st with fetched := st.fetched ++ batchPages start }).saved,
            qc.1 < start + CONCURRENT_FETCHES := by
          intro qc hqc
          rw [hsv] at hqc
          rcases List.mem_append.mp hqc with hqc | hqc
          · have := hsaved qc hqc
            omega
          · have := hbnd qc hqc
            omega
        have hfetched2 : ∀ q ∈ ((batchPages start).foldl (fun s q => processResult s (q, f q))
            { st with fetched := st.fetched ++ batchPages start }).fetched,
            q < start + CONCURRENT_FETCHES := by
          intro q hq
          rw [hf] at hq
          rcases List.mem_append.mp hq with hq | hq
          · have := hfetched q hq
            omega
          · exact hmemb q hq
        obtain ⟨hp1, hp2, hp3⟩ := ih (start + CONCURRENT_FETCHES) _ hnone hsaved2 hfetched2 k p hp
        exact ⟨by omega, hp2, hp3⟩

/-- Claim C4: once a page whose content matches the no-records phrase heuristic
triggers the stop, no page with a higher page number than the triggering page is
ever persisted (every persisted page number is strictly below it) and no further
batch is scheduled (every dispatched page number is below the end of the batch
containing the trigger, hence below `p + CONCURRENT_FETCHES`). -/
theorem c4_no_records_stop (f : Nat → Option String) (p : Nat)
    (h : (fetch_pages_concurrently f).stop = some (StopKind.noRecords, p)) :
    ((fetch_pages_concurrently f).saved.all (fun qc => decide (qc.1 < p))) = true ∧
    ((fetch_pages_concurrently f).fetched.all
      (fun q => decide (q < p + CONCURRENT_FETCHES))) = true := by
  have hinv := runBatchesAux_inv f (MAX_PAGES_TO_FETCH + 1) 1 ⟨[], none, none, []⟩ rfl
    (by intro qc hqc; exact absurd hqc (List.not_mem_nil qc))
    (by intro q hq; exact absurd hq (List.not_mem_nil q)) StopKind.noRecords p h
  exact ⟨List.all_eq_true.mpr (fun qc hqc => decide_eq_true (hinv.2.1 qc hqc)),
    List.all_eq_true.mpr (fun q hq => decide_eq_true (hinv.2.2 q hq))⟩

theorem c4_no_records_stop_witness :
    ((fetch_pages_concurrently noRecFetch).saved.all (fun qc => decide (qc.1 < 1))) = true ∧
    ((fetch_pages_concurrently noRecFetch).fetched.all
      (fun q => decide (q < 1 + CONCURRENT_FETCHES))) = true :=
  c4_no_records_stop noRecFetch 1 (by decide)

/-- Claim C3 (amended): when page 2's fetched content is byte-identical to page
1's (and page 1's content is long enough and phrase-free, so it is persisted),
the run persists only page 1, stops with the duplicate signal at page 2, and
dispatches no batch beyond the first — but pages 3, 4 and 5 belong to the same
concurrent batch as pages 1 and 2, so they are fetched along with them; their
results are discarded unprocessed. -/
theorem c3_duplicate_stop (f : Nat → Option String) (c : String)
    (h1 : f 1 = some c) (h2 : f 2 = some c) (hph : noRecordsPhrase c = false)
    (hlen : 100 ≤ c.length) :
    (fetch_pages_concurrently f).saved = [(1, c)] ∧
    (fetch_pages_concurrently f).stop = some (StopKind.duplicate, 2) ∧
    (fetch_pages_concurrently f).fetched = [1, 2, 3, 4, 5] := by
  have hnl : ¬ c.length < 100 := Nat.not_lt.mpr hlen
  have hstep1 : processResult ⟨[], none, none, [1, 2, 3, 4, 5]⟩ (1, f 1)
      = ⟨[(1, c)], some c, none, [1, 2, 3, 4, 5]⟩ := by
    rw [h1]
    unfold processResult
    simp [hph, hnl]
  have hstep2 : processResult ⟨[(1, c)], some c, none, [1, 2, 3, 4, 5]⟩ (2, f 2)
      = ⟨[(1, c)], some c, some (StopKind.duplicate, 2), [1, 2, 3, 4, 5]⟩ := by
    rw [h2]
    unfold processResult
    simp [hph, hnl]
  have hfold : ([1, 2, 3, 4, 5] : List Nat).foldl (fun s q => processResult s (q, f q))
      ⟨[], none, none, [1, 2, 3, 4, 5]⟩
      = ⟨[(1, c)], some c, some (StopKind.duplicate, 2), [1, 2, 3, 4, 5]⟩ := by
    simp only [List.foldl_cons, List.foldl_nil]
    rw [hstep1, hstep2,
      processResult_of_stop ⟨[(1, c)], some c, some (StopKind.duplicate, 2),
        [1, 2, 3, 4, 5]⟩ (3, f 3) rfl,
      processResult_of_stop ⟨[(1, c)], some c, some (StopKind.duplicate, 2),
        [1, 2, 3, 4, 5]⟩ (4, f 4) rfl,
      processResult_of_stop ⟨[(1, c)], some c, some (StopKind.duplicate, 2),
        [1, 2, 3, 4, 5]⟩ (5, f 5) rfl]
  unfold fetch_pages_concurrently
  rw [runBatchesAux_step f MAX_PAGES_TO_FETCH 1 _ (by decide)]
  rw [show batchPages 1 = [1, 2, 3, 4, 5] from rfl]
  simp only [List.nil_append]
  rw [hfold]
  exact ⟨rfl, rfl, rfl⟩

theorem c3_duplicate_stop_witness :
    (fetch_pages_concurrently dupFetch).saved = [(1, dupContent)] ∧
    (fetch_pages_concurrently dupFetch).stop = some (StopKind.duplicate, 2) ∧
    (fetch_pages_concurrently dupFetch).fetched = [1, 2, 3, 4, 5] :=
  c3_duplicate_stop dupFetch dupContent rfl rfl (by decide) (by decide)

/-- Claim C3 as stated is false in one respect: with page 2 byte-identical to
page 1, only page 1 is persisted and the run stops — but page 3 *is* fetched,
because it belongs to the same concurrent batch (of `CONCURRENT_FETCHES = 5`
pages) that was dispatched and awaited together before any result of the batch
was examined. -/
theorem c3_duplicate_stop_counterexample :
    3 ∈ (fetch_pages_concurrently dupFetch).fetched ∧
    (fetch_pages_concurrently dupFetch).saved = [(1, dupContent)] ∧
    (fetch_pages_concurrently dupFetch).stop = some (StopKind.duplicate, 2) := by
  refine ⟨by decide, by decide, by decide⟩

/-! ### Merge and cleanup (claims C5 and C6) -/

/-- Merge-loop invariant: appended blocks stay pairwise distinct in content, and
every appended block's content is recorded in `seen`. -/
theorem mergeFold_inv (l : List (Nat × String)) :
    ∀ st : MergeState,
    List.Pairwise (fun a b => a.2 ≠ b.2) st.blocks →
    (∀ b ∈ st.blocks, st.seen.contains b.2 = true) →
    List.Pairwise (fun a b => a.2 ≠ b.2) (l.foldl mergeStep st).blocks ∧
    (∀ b ∈ (l.foldl mergeStep st).blocks, (l.foldl mergeStep st).seen.contains b.2 = true) := by
  induction l with
  | nil => intro st h1 h2; exact ⟨h1, h2⟩
  | cons x xs ih =>
    intro st h1 h2
    rw [List.foldl_cons]
    by_cases hc : x.2 ≠ "" ∧ ¬ st.seen.contains x.2
    · have hstep : mergeStep st x = ⟨x.2 :: st.seen, st.blocks ++ [x], st.mergedCount + 1⟩ := by
        unfold mergeStep
        rw [if_pos hc]
      rw [hstep]
      apply ih
      · rw [List.pairwise_append]
        refine ⟨h1, List.pairwise_singleton _ _, ?_⟩
        intro a ha b hb
        rw [List.mem_singleton] at hb
        subst hb
        intro heq
        apply hc.2
        rw [← heq]
        exact h2 a ha
      · intro b hb
        rcases List.mem_append.mp hb with hb | hb
        · have := h2 b hb
          simp only [List.contains_cons, this, Bool.or_true]
        · rw [List.mem_singleton] at hb
          subst hb
          simp [List.contains_cons]
    · have hstep : mergeStep st x = st := by
        unfold mergeStep
        rw [if_neg hc]
      rw [hstep]
      exact ih st h1 h2

/-- Claim C5: the corpus produced by `merge_and_cleanup` never contains two
blocks with identical page content — a file's content is appended only when its
content hash is unseen in the run. -/
theorem c5_merge_dedup (dateStr : String) (dirExists : Bool) (pages : List (Nat × String)) :
    List.Pairwise (fun a b => a.2 ≠ b.2) (merge_and_cleanup dateStr dirExists pages).blocks := by
  cases dirExists with
  | false => exact List.Pairwise.nil
  | true =>
    unfold merge_and_cleanup
    rw [if_neg (by decide)]
    by_cases hp : pages.isEmpty
    · rw [if_pos hp]
      exact List.Pairwise.nil
    · rw [if_neg hp]
      exact (mergeFold_inv (sortPages pages) ⟨[], [], 0⟩ List.Pairwise.nil
        (fun b hb => absurd hb (List.not_mem_nil b))).1

/-- Claim C6: `merge_and_cleanup` returns a null corpus path exactly when zero
page files existed (directory absent or no `Page_*.txt` files); with at least
one page file the path is always non-null — in particular a run over files that
all have empty content merges zero pages yet still returns a non-null path, so
the two outcomes are distinguishable. -/
theorem c6_merge_null_path (dateStr : String) (pages : List (Nat × String))
    (p : Nat × String) (ps : List (Nat × String)) :
    (merge_and_cleanup dateStr false pages).corpusPath = none ∧
    (merge_and_cleanup dateStr true []).corpusPath = none ∧
    (merge_and_cleanup dateStr true (p :: ps)).corpusPath
      = some ("Final_Tender_List_" ++ dateStr ++ ".txt") ∧
    (merge_and_cleanup "2025-01-01" true [(1, ""), (2, "")]).mergedCount = 0 ∧
    (merge_and_cleanup "2025-01-01" true [(1, ""), (2, "")]).corpusPath.isSome = true := by
  refine ⟨rfl, rfl, ?_, by decide, by decide⟩
  unfold merge_and_cleanup
  rw [if_neg (by decide), if_neg (by exact Bool.noConfusion)]

/-! ### Identifier extraction (claim C9) -/

theorem procLineTitle_preserves_id (t : DashTender) (tf : Bool) (line : String) :
    ((procLineTitle t tf line).1).tender_id = t.tender_id := by
  unfold procLineTitle
  split
  · split
    · rfl
    · rfl
  · rfl

theorem procLineDept_preserves_id (t : DashTender) (tf : Bool) (line : String) :
    ((procLineDept t tf line).1).tender_id = t.tender_id := by
  unfold procLineDept
  split
  · split
    · rfl
    · exact procLineTitle_preserves_id t tf line
  · exact procLineTitle_preserves_id t tf line

/-- A line on which the `[Tender ID: …]` pattern does not match never changes
the identifier field. -/
theorem procLine_preserves_id (st : DashTender × Bool) (line : String)
    (h : tenderIdSearch line = none) : ((procLine st line).1).tender_id = st.1.tender_id := by
  unfold procLine
  rw [h]
  exact procLineDept_preserves_id st.1 st.2 line

theorem foldl_procLine_preserves_id (lines : List String) :
    ∀ st : DashTender × Bool, (∀ l ∈ lines, tenderIdSearch l = none) →
    ((lines.foldl procLine st).1).tender_id = st.1.tender_id := by
  induction lines with
  | nil => intro st _; rfl
  | cons l ls ih =>
    intro st h
    rw [List.foldl_cons]
    rw [ih (procLine st l) (fun x hx => h x (List.mem_cons_of_mem l hx))]
    exact procLine_preserves_id st l (h l (List.mem_cons_self l ls))

/-- Claim C9 (amended): the parser's identifier field equals the sentinel
`"N/A"` whenever no line of the block matches the code's identifier pattern
`\[Tender ID:\s*([^\]]+)\]` (case-insensitive); identifiers are taken only from
such brackets and never guessed from other bracketed substrings. (The pattern
the code applies is the `[Tender ID: …]` bracket, not the spec's strict
year-prefix pattern.) -/
theorem c9_no_id_match_gives_sentinel (block_lines : List String) (t : DashTender)
    (hp : _parse_single_tender_block block_lines = some t)
    (h : ∀ l ∈ block_lines, tenderIdSearch l = none) :
    t.tender_id = "N/A" := by
  cases block_lines with
  | nil => exact Option.noConfusion hp
  | cons b0 rest =>
    simp only [_parse_single_tender_block, Option.some.injEq] at hp
    rw [← hp]
    rw [foldl_procLine_preserves_id rest _ (fun x hx => h x (List.mem_cons_of_mem b0 hx))]

theorem c9_no_id_match_gives_sentinel_witness :
    ((_parse_single_tender_block c9noIdBlock).map (fun t => t.tender_id)) = some "N/A" := by
  obtain ⟨t, ht⟩ : ∃ t, _parse_single_tender_block c9noIdBlock = some t := ⟨_, rfl⟩
  rw [ht, Option.map_some']
  exact congrArg some (c9_no_id_match_gives_sentinel c9noIdBlock t ht (by decide))

/-- Claim C9 as stated is false: the extractor in the source recognises
identifiers by the `[Tender ID: …]` bracket, not by the spec's strict pattern
(year prefix, word token, two numeric segments). On a block whose only
bracketed substring is `[Tender ID: hello]` — which matches no strict-pattern
bracket — the identifier becomes `"hello"`, not the `"N/A"` sentinel. -/
theorem c9_strict_pattern_counterexample :
    ((_parse_single_tender_block c9block).map (fun t => t.tender_id)) = some "hello" ∧
    ("hello" : String) ≠ "N/A" ∧
    ((c9block.map bracketedSubstrings).flatten.all (fun b => !strictIdPatternMatch b)) = true := by
  refine ⟨by decide, by decide, by decide⟩
